import Mathlib

/-!
Verification development for the OracleX Polymarket core
(`rai_algo/polymarket`): a shallow embedding in Lean 4 of the order-book
analytics (`enhanced_orderbook.py`, `models.py`), the paper-trading ledger
(`demo_trader.py`), the opportunity scanner (`scanner.py`) and the
coordinator's position sizing (`orchestrator.py`), together with theorems
settling the specification claims.

Conventions of the embedding:
* Python `Decimal` values are modelled as exact rationals `ℚ` (the spec
  requires the analytics to be "numerically exact"; every operation used
  here — add, subtract, multiply, compare — is exact in `Decimal`, and
  divisions are only reasoned about away from context-rounding corner
  cases).
* Python `Optional[Decimal]` is `Option ℚ`.  Python truthiness of such a
  value (`if x:`) is false both for `None` and for `Decimal("0")`; the
  embedding spells this out at each use site.
* Python `dict` (insertion ordered) is an association list; `list.sort`
  (stable) is `List.insertionSort` with a total preorder, which produces
  the same list as any stable sort for the same key.
* Fallible operations return `Option`/`Except`; a raised exception
  (`Decimal` division by zero) is an `Except.error`.
-/

/-- Outcome side of a prediction-market order ("YES"/"NO" in
`models.OrderSide`). -/
inductive OrderSide
  | YES
  | NO
  deriving DecidableEq, Repr

/-- Embeds `models.OrderSide.value`. -/
def OrderSide.value : OrderSide → String
  | .YES => "YES"
  | .NO => "NO"

/-- Position direction (`models.PositionSide`). -/
inductive PositionSide
  | LONG
  | SHORT
  deriving DecidableEq, Repr

/-- Embeds `models.OpportunityType`. -/
inductive OpportunityType
  | arbitrage
  | news_gap
  | probability_edge
  | time_decay
  | liquidity
  | trader_signal
  | social_sentiment
  | breaking_news
  deriving DecidableEq, Repr

/-- Embeds `models.OrderBookEntry`: a (price, size) level. -/
structure OrderBookEntry where
  price : ℚ
  size : ℚ
  deriving DecidableEq, Repr

/-- Embeds `models.OrderBook`: four lists of levels. -/
structure OrderBook where
  market_id : String
  yes_bids : List OrderBookEntry := []
  yes_asks : List OrderBookEntry := []
  no_bids : List OrderBookEntry := []
  no_asks : List OrderBookEntry := []
  deriving DecidableEq, Repr

/-- Python `max(xs, default=None)` over a list of `Decimal`s. -/
def listMax : List ℚ → Option ℚ
  | [] => none
  | x :: xs => some (xs.foldl max x)

/-- Python `min(xs, default=None)` over a list of `Decimal`s. -/
def listMin : List ℚ → Option ℚ
  | [] => none
  | x :: xs => some (xs.foldl min x)

/-- The side argument of the `EnhancedOrderBook` methods (they compare
`side.upper() == "YES"`; all call sites pass "YES" or "NO"). -/
inductive BookSide
  | YES
  | NO
  deriving DecidableEq, Repr

/-- The bid levels the side selects. -/
def OrderBook.bidsOf (ob : OrderBook) : BookSide → List OrderBookEntry
  | .YES => ob.yes_bids
  | .NO => ob.no_bids

/-- The ask levels the side selects. -/
def OrderBook.asksOf (ob : OrderBook) : BookSide → List OrderBookEntry
  | .YES => ob.yes_asks
  | .NO => ob.no_asks

/-- Result dictionary of `EnhancedOrderBook.get_best_bid_ask`. -/
structure BestBidAsk where
  best_bid : Option ℚ
  best_ask : Option ℚ
  spread : Option ℚ
  mid_price : Option ℚ
  deriving DecidableEq, Repr

/-- Python `f(b, a) if (bid and ask) else None`: the guard is truthiness,
so it fails when either operand is `None` or when either is zero. -/
def combineTruthy (bid ask : Option ℚ) (f : ℚ → ℚ → ℚ) : Option ℚ :=
  match bid, ask with
  | some b, some a => if b ≠ 0 ∧ a ≠ 0 then some (f b a) else none
  | _, _ => none

/-- Embeds `EnhancedOrderBook.get_best_bid_ask` (enhanced_orderbook.py:20-34). -/
def get_best_bid_ask (ob : OrderBook) (side : BookSide) : BestBidAsk :=
  let best_bid := listMax ((ob.bidsOf side).map (·.price))
  let best_ask := listMin ((ob.asksOf side).map (·.price))
  { best_bid := best_bid
    best_ask := best_ask
    spread := combineTruthy best_bid best_ask fun b a => a - b
    mid_price := combineTruthy best_bid best_ask fun b a => (b + a) / 2 }

/-- The "type" tag in the dictionary returned by
`EnhancedOrderBook.get_arbitrage_opportunity`. -/
inductive ArbType
  | buy_arbitrage
  | sell_arbitrage
  deriving DecidableEq, Repr

/-- Result dictionary of `EnhancedOrderBook.get_arbitrage_opportunity`. -/
structure ArbOpportunity where
  type : ArbType
  opportunity_pct : ℚ
  yes_price : ℚ
  no_price : ℚ
  total : ℚ
  profit_potential : ℚ
  deriving DecidableEq, Repr

/-- Embeds `EnhancedOrderBook.get_arbitrage_opportunity`
(enhanced_orderbook.py:102-135).  The Python guard `if yes_mid and no_mid:`
is truthiness of the two optionals. -/
def get_arbitrage_opportunity (ob : OrderBook) : Option ArbOpportunity :=
  let yes_mid := (get_best_bid_ask ob .YES).mid_price
  let no_mid := (get_best_bid_ask ob .NO).mid_price
  match yes_mid, no_mid with
  | some y, some n =>
    if y ≠ 0 ∧ n ≠ 0 then
      let total := y + n
      if total < 98 / 100 then
        some { type := .buy_arbitrage
               opportunity_pct := (1 - total) * 100
               yes_price := y
               no_price := n
               total := total
               profit_potential := 1 - total }
      else if total > 102 / 100 then
        some { type := .sell_arbitrage
               opportunity_pct := (total - 1) * 100
               yes_price := y
               no_price := n
               total := total
               profit_potential := total - 1 }
      else none
    else none
  | _, _ => none

/-- Ascending-by-price order on levels; `sorted(asks, key=lambda x: x.price)`
is the stable sort for this total preorder. -/
def priceLe (a b : OrderBookEntry) : Prop := a.price ≤ b.price

instance : DecidableRel priceLe := fun a b => inferInstanceAs (Decidable (a.price ≤ b.price))

instance : IsTotal OrderBookEntry priceLe := ⟨fun a b => le_total a.price b.price⟩

instance : IsTrans OrderBookEntry priceLe := ⟨fun _ _ _ h h2 => le_trans h h2⟩

/-- The greedy walk in `EnhancedOrderBook.get_market_impact`: returns
(remaining unfilled size, total cost, levels consumed). -/
def impactWalk : List OrderBookEntry → ℚ → ℚ → ℕ → ℚ × ℚ × ℕ
  | [], remaining, cost, levels => (remaining, cost, levels)
  | a :: rest, remaining, cost, levels =>
    if remaining ≤ 0 then (remaining, cost, levels)
    else
      let take := min remaining a.size
      impactWalk rest (remaining - take) (cost + take * a.price) (levels + 1)

/-- Result dictionary of `EnhancedOrderBook.get_market_impact`. -/
structure MarketImpact where
  average_price : ℚ
  price_impact_pct : ℚ
  levels_consumed : ℕ
  total_cost : ℚ
  deriving DecidableEq, Repr

/-- Embeds `EnhancedOrderBook.get_market_impact` (enhanced_orderbook.py:154-185).
Note the average divides the total cost by the *requested* `size`
(`avg_price = total_cost / size if size > 0 else Decimal("0")`), and the
price-impact guard `if best_ask` is truthiness (zero counts as missing). -/
def get_market_impact (ob : OrderBook) (side : BookSide) (size : ℚ) : MarketImpact :=
  let asks := (ob.asksOf side).insertionSort priceLe
  let walk := impactWalk asks size 0 0
  let total_cost := walk.2.1
  let avg_price := if size > 0 then total_cost / size else 0
  let best_ask := (get_best_bid_ask ob side).best_ask
  let price_impact :=
    match best_ask with
    | some a => if a ≠ 0 then (avg_price - a) / a * 100 else 0
    | none => 0
  { average_price := avg_price
    price_impact_pct := price_impact
    levels_consumed := walk.2.2
    total_cost := total_cost }

/-- The filled portion of a `get_market_impact` request: requested size
minus the remaining unfilled size left by the greedy walk. -/
def impactFilledSize (ob : OrderBook) (side : BookSide) (size : ℚ) : ℚ :=
  size - (impactWalk ((ob.asksOf side).insertionSort priceLe) size 0 0).1

/-- Total ask-side depth of the book on one side. -/
def askDepth (ob : OrderBook) (side : BookSide) : ℚ :=
  ((ob.asksOf side).map (·.size)).sum

/-- Embeds `OrderBook.get_best_yes_price` (models.py:101-105): highest YES bid. -/
def get_best_yes_price (ob : OrderBook) : Option ℚ :=
  listMax (ob.yes_bids.map (·.price))

/-- Embeds `OrderBook.get_best_no_price` (models.py:107-111): highest NO bid. -/
def get_best_no_price (ob : OrderBook) : Option ℚ :=
  listMax (ob.no_bids.map (·.price))

/-- Embeds `models.Opportunity` (the fields the core logic reads; metadata,
timestamps and free-text rationale are omitted as no operation modelled
here depends on them). -/
structure Opportunity where
  id : String
  market_id : String
  opportunity_type : OpportunityType
  side : OrderSide
  score : ℚ
  expected_return : ℚ := 0
  entry_price : ℚ
  target_price : Option ℚ := none
  stop_loss : Option ℚ := none
  deriving DecidableEq, Repr

/-- Descending-by-score order on opportunities;
`opportunities.sort(key=lambda x: x.score, reverse=True)` (stable) is the
stable sort for this total preorder. -/
def scoreGe (a b : Opportunity) : Prop := b.score ≤ a.score

instance : DecidableRel scoreGe := fun a b => inferInstanceAs (Decidable (b.score ≤ a.score))

instance : IsTotal Opportunity scoreGe := ⟨fun a b => le_total b.score a.score⟩

instance : IsTrans Opportunity scoreGe := ⟨fun _ _ _ h h2 => le_trans h2 h⟩

/-- Embeds `MarketScannerAgent` state relevant to retrieval: its opportunity
buffer (`self.opportunities`). -/
structure ScannerState where
  opportunities : List Opportunity
  deriving DecidableEq, Repr

/-- The score filter of `MarketScannerAgent.get_opportunities`: applied
only when `min_score` is truthy (`if min_score:` skips both `None` and
`0.0`). -/
def scoreFiltered (min_score : Option ℚ) (l : List Opportunity) : List Opportunity :=
  match min_score with
  | some m => if m ≠ 0 then l.filter (fun o => decide (m ≤ o.score)) else l
  | none => l

/-- The type filter of `MarketScannerAgent.get_opportunities`: applied
when `opportunity_type` is not `None` (enum members are always truthy). -/
def typeFiltered (otype : Option OpportunityType) (l : List Opportunity) : List Opportunity :=
  match otype with
  | some t => l.filter (fun o => decide (o.opportunity_type = t))
  | none => l

/-- Whether any of the two filters rebinds the local `opportunities`
variable to a fresh list.  When neither applies, the local name still
aliases `self.opportunities`, so the subsequent in-place
`opportunities.sort(...)` mutates the scanner's own buffer. -/
def filtersApplied (min_score : Option ℚ) (otype : Option OpportunityType) : Bool :=
  (match min_score with
   | some m => decide (m ≠ 0)
   | none => false) || otype.isSome

/-- Embeds `MarketScannerAgent.get_opportunities` (scanner.py:245-263), returning
the result list together with the scanner state after the call. -/
def get_opportunities (s : ScannerState) (min_score : Option ℚ)
    (otype : Option OpportunityType) (limit : ℕ) : List Opportunity × ScannerState :=
  let sorted := (typeFiltered otype (scoreFiltered min_score s.opportunities)).insertionSort scoreGe
  (sorted.take limit,
   if filtersApplied min_score otype then s else { s with opportunities := sorted })

/-- Embeds `models.Order`. -/
structure Order where
  id : Option String := none
  market_id : String
  side : OrderSide
  price : ℚ
  size : ℚ
  filled_size : ℚ := 0
  status : String := "pending"
  filled_at : Option ℕ := none
  deriving DecidableEq, Repr

/-- Embeds `models.Position` (market-snapshot field omitted; timestamps are
abstract ticks supplied by the caller). -/
structure Position where
  id : String
  market_id : String
  side : PositionSide
  size : ℚ
  entry_price : ℚ
  current_price : ℚ
  strategy_id : Option String := none
  strategy_name : Option String := none
  unrealized_pnl : ℚ := 0
  realized_pnl : ℚ := 0
  stop_loss : Option ℚ := none
  take_profit : Option ℚ := none
  opened_at : ℕ := 0
  closed_at : Option ℕ := none
  deriving DecidableEq, Repr

/-- Embeds `Position.update_pnl` (models.py:204-210). -/
def Position.update_pnl (p : Position) (current_price : ℚ) : Position :=
  { p with
    current_price := current_price
    unrealized_pnl :=
      if p.side = .LONG then (current_price - p.entry_price) * p.size
      else (p.entry_price - current_price) * p.size }

/-- Embeds `models.Trade`. -/
structure Trade where
  id : String
  market_id : String
  side : OrderSide
  price : ℚ
  size : ℚ
  strategy_id : Option String := none
  pnl : ℚ := 0
  deriving DecidableEq, Repr

/-- The mutable state of `DemoTrader` (demo_trader.py:23-30).  The
`positions` dict is an insertion-ordered association list keyed by
position id.  (`self.orders` is declared but never written by any method,
so it is omitted.) -/
structure TraderState where
  capital : ℚ
  initial_capital : ℚ
  positions : List (String × Position) := []
  trade_history : List Trade := []
  closed_positions : List Position := []
  deriving DecidableEq, Repr

/-- Dict lookup on the positions association list. -/
def lookupPos : List (String × Position) → String → Option Position
  | [], _ => none
  | (k, p) :: rest, pid => if k = pid then some p else lookupPos rest pid

/-- Dict assignment `d[k] = v`: replace in place if the key exists,
append otherwise. -/
def setPos : List (String × Position) → String → Position → List (String × Position)
  | [], pid, p => [(pid, p)]
  | (k, q) :: rest, pid, p =>
    if k = pid then (k, p) :: rest else (k, q) :: setPos rest pid p

/-- Dict deletion `del d[k]`. -/
def removePos : List (String × Position) → String → List (String × Position)
  | [], _ => []
  | (k, q) :: rest, pid => if k = pid then rest else (k, q) :: removePos rest pid

/-- Embeds `DemoTrader.get_unrealized_pnl` (demo_trader.py:47-49). -/
def get_unrealized_pnl (s : TraderState) : ℚ :=
  (s.positions.map (fun kp => kp.2.unrealized_pnl)).sum

/-- Embeds `DemoTrader.get_equity` (demo_trader.py:36-41). -/
def get_equity (s : TraderState) : ℚ :=
  s.capital + get_unrealized_pnl s

/-- Embeds `DemoTrader.get_realized_pnl` (demo_trader.py:43-45). -/
def get_realized_pnl (s : TraderState) : ℚ :=
  (s.trade_history.map (·.pnl)).sum

/-- Embeds `DemoTrader.get_total_pnl` (demo_trader.py:51-53). -/
def get_total_pnl (s : TraderState) : ℚ :=
  get_realized_pnl s + get_unrealized_pnl s

/-- Embeds `DemoTrader.get_roi` (demo_trader.py:55-59). -/
def get_roi (s : TraderState) : ℚ :=
  if s.initial_capital = 0 then 0
  else (get_equity s - s.initial_capital) / s.initial_capital * 100

/-- An individual change to the ledger's capital, recorded at the two
source lines that touch `self.capital`: the fill deduction
(demo_trader.py:110, `self.capital -= cost`) and the close credit
(demo_trader.py:248, `self.capital += proceeds`). -/
inductive CapitalEvent
  | fillCost (price size : ℚ)
  | closeProceeds (price size : ℚ)
  deriving DecidableEq, Repr

/-- The signed capital delta an event carries. -/
def eventDelta : CapitalEvent → ℚ
  | .fillCost p sz => -(p * sz)
  | .closeProceeds p sz => p * sz

/-- Whether an event is a close credit. -/
def CapitalEvent.isClose : CapitalEvent → Prop
  | .fillCost _ _ => False
  | .closeProceeds _ _ => True

instance : DecidablePred CapitalEvent.isClose := fun e => by
  cases e <;> simp [CapitalEvent.isClose] <;> infer_instance

/-- Embeds `DemoTrader._execute_order` (demo_trader.py:96-156): fill the order,
deduct the cost from capital, create or weighted-average-merge the
position, mark it to the fill price, and append a Trade.  Returns the
filled order, the new state and the capital events.

Note: in the merge branch the Decimal division
`total_cost / total_size` raises when `total_size = 0`; the embedding
totalises it with rational division (which yields 0 there) and every
theorem below stays away from that corner. -/
def execute_order (s : TraderState) (order : Order) (opp : Opportunity)
    (strategy_id strategy_name : Option String) (now : ℕ) :
    Order × TraderState × List CapitalEvent :=
  let order1 := { order with status := "filled", filled_size := order.size, filled_at := some now }
  let cost := order1.price * order1.size
  let capital1 := s.capital - cost
  let position_id := order1.market_id ++ "_" ++ order1.side.value
  let position : Position :=
    match lookupPos s.positions position_id with
    | some p =>
      let total_cost := p.entry_price * p.size + cost
      let total_size := p.size + order1.size
      { p with entry_price := total_cost / total_size, size := total_size }
    | none =>
      { id := position_id
        market_id := order1.market_id
        side := if order1.side = OrderSide.YES then PositionSide.LONG else PositionSide.SHORT
        size := order1.size
        entry_price := order1.price
        current_price := order1.price
        strategy_id := strategy_id
        strategy_name := strategy_name
        stop_loss := opp.stop_loss
        take_profit := opp.target_price
        opened_at := now }
  let position1 := position.update_pnl order1.price
  let trade : Trade :=
    { id := "trade_" ++ toString now
      market_id := order1.market_id
      side := order1.side
      price := order1.price
      size := order1.size
      strategy_id := strategy_id }
  (order1,
   { s with
     capital := capital1
     positions := setPos s.positions position_id position1
     trade_history := s.trade_history ++ [trade] },
   [.fillCost order1.price order1.size])

/-- Embeds `DemoTrader.place_order` (demo_trader.py:61-94).  The share count
`size = position_value / opportunity.entry_price` is computed *before*
the capital check, so a zero entry price raises `decimal.DivisionByZero`
(modelled as `Except.error ()`) no matter what the capital is; the state
is untouched in that case because all mutation happens later, inside
`_execute_order`.  An insufficient-capital rejection returns `None` with
the state unchanged. -/
def place_order (s : TraderState) (opp : Opportunity) (position_size_pct : ℚ)
    (strategy_id strategy_name : Option String) (now : ℕ) :
    Except Unit (Option Order × TraderState × List CapitalEvent) :=
  let equity := get_equity s
  let position_value := equity * position_size_pct
  if opp.entry_price = 0 then .error ()
  else
    let size := position_value / opp.entry_price
    if position_value > s.capital then .ok (none, s, [])
    else
      let order : Order :=
        { id := some ("order_" ++ toString now)
          market_id := opp.market_id
          side := opp.side
          price := opp.entry_price
          size := size }
      let r := execute_order s order opp strategy_id strategy_name now
      .ok (some r.1, r.2.1, r.2.2)

/-- The price feed `DemoTrader` reaches through
`self.client.get_orderbook(market_id)`; `none` is an unavailable book. -/
def PriceEnv : Type := String → Option OrderBook

/-- Embeds `DemoTrader.close_position` (demo_trader.py:214-271).  Returns `None`
with the state unchanged when the id is not an open position, when the
order book is unavailable, or when the best price on the position's side
is missing *or zero* (`if not exit_price:` is truthiness). -/
def close_position (s : TraderState) (env : PriceEnv) (position_id : String) (now : ℕ) :
    Option Position × TraderState × List CapitalEvent :=
  match lookupPos s.positions position_id with
  | none => (none, s, [])
  | some pos =>
    match env pos.market_id with
    | none => (none, s, [])
    | some ob =>
      let exit? := if pos.side = .LONG then get_best_yes_price ob else get_best_no_price ob
      match exit? with
      | none => (none, s, [])
      | some exit_price =>
        if exit_price = 0 then (none, s, [])
        else
          let realized_pnl :=
            if pos.side = .LONG then (exit_price - pos.entry_price) * pos.size
            else (pos.entry_price - exit_price) * pos.size
          let pos1 := { pos with
            realized_pnl := realized_pnl
            current_price := exit_price
            closed_at := some now }
          let proceeds := exit_price * pos.size
          let trade : Trade :=
            { id := "trade_" ++ toString now
              market_id := pos.market_id
              side := if pos.side = .LONG then OrderSide.YES else OrderSide.NO
              price := exit_price
              size := pos.size
              strategy_id := pos.strategy_id
              pnl := realized_pnl }
          (some pos1,
           { s with
             capital := s.capital + proceeds
             trade_history := s.trade_history ++ [trade]
             closed_positions := s.closed_positions ++ [pos1]
             positions := removePos s.positions position_id },
           [.closeProceeds exit_price pos.size])

/-- Embeds `DemoTrader._check_exit_conditions` (demo_trader.py:182-212) without
the final close call: whether a stop-loss or take-profit triggers.  The
guards `if position.stop_loss:` / `if position.take_profit:` are
truthiness, so a threshold of zero never triggers. -/
def should_exit (pos : Position) (current_price : ℚ) : Bool :=
  let stop :=
    match pos.stop_loss with
    | some sl =>
      decide (sl ≠ 0) &&
        (if pos.side = .LONG then decide (current_price ≤ sl) else decide (current_price ≥ sl))
    | none => false
  let take :=
    match pos.take_profit with
    | some tp =>
      decide (tp ≠ 0) &&
        (if pos.side = .LONG then decide (current_price ≥ tp) else decide (current_price ≤ tp))
    | none => false
  stop || take

/-- One iteration body plus recursion of the loop in
`DemoTrader.update_positions` (demo_trader.py:158-180): the loop runs
over a snapshot `list(self.positions.items())` of the keys taken at
entry; each iteration re-reads the live position (the Python loop
variable aliases the object stored in the dict), skips it when the order
book or a truthy current price is unavailable, otherwise marks it to the
current price and, when `_check_exit_conditions` fires, closes it. -/
def update_positions_go (env : PriceEnv) (now : ℕ) :
    List String → TraderState → TraderState × List CapitalEvent
  | [], s => (s, [])
  | pid :: rest, s =>
    match lookupPos s.positions pid with
    | none => update_positions_go env now rest s
    | some pos =>
      match env pos.market_id with
      | none => update_positions_go env now rest s
      | some ob =>
        let current? := if pos.side = .LONG then get_best_yes_price ob else get_best_no_price ob
        match current? with
        | none => update_positions_go env now rest s
        | some current_price =>
          if current_price = 0 then update_positions_go env now rest s
          else
            let pos1 := pos.update_pnl current_price
            let s1 := { s with positions := setPos s.positions pid pos1 }
            if should_exit pos1 current_price then
              let c := close_position s1 env pid now
              let r := update_positions_go env now rest c.2.1
              (r.1, c.2.2 ++ r.2)
            else
              update_positions_go env now rest s1

/-- Embeds `DemoTrader.update_positions` (demo_trader.py:158-180). -/
def update_positions (s : TraderState) (env : PriceEnv) (now : ℕ) :
    TraderState × List CapitalEvent :=
  update_positions_go env now (s.positions.map (·.1)) s

/-- The dictionary returned by `DemoTrader.get_statistics`
(demo_trader.py:273-304). -/
structure Statistics where
  capital : ℚ
  equity : ℚ
  initial_capital : ℚ
  total_pnl : ℚ
  realized_pnl : ℚ
  unrealized_pnl : ℚ
  roi : ℚ
  total_trades : ℕ
  win_rate : ℚ
  avg_win : ℚ
  avg_loss : ℚ
  open_positions : ℕ
  closed_positions : ℕ
  deriving DecidableEq, Repr

/-- Embeds `DemoTrader.get_statistics` (demo_trader.py:273-304): a pure
derivation over the ledger state. -/
def get_statistics (s : TraderState) : Statistics :=
  let total_trades := s.trade_history.length
  let winning := s.trade_history.filter (fun t => decide (0 < t.pnl))
  let losing := s.trade_history.filter (fun t => decide (t.pnl < 0))
  { capital := s.capital
    equity := get_equity s
    initial_capital := s.initial_capital
    total_pnl := get_total_pnl s
    realized_pnl := get_realized_pnl s
    unrealized_pnl := get_unrealized_pnl s
    roi := get_roi s
    total_trades := total_trades
    win_rate := if 0 < total_trades then (winning.length : ℚ) / total_trades else 0
    avg_win := if winning ≠ [] then (winning.map (·.pnl)).sum / winning.length else 0
    avg_loss := if losing ≠ [] then (losing.map (·.pnl)).sum / losing.length else 0
    open_positions := s.positions.length
    closed_positions := s.closed_positions.length }

/-- One ledger operation of a trace: an order placement, an explicit
close, a position refresh, or a read-only statistics query. -/
inductive LedgerOp
  | place (opp : Opportunity) (pct : ℚ) (strategy_id strategy_name : Option String)
  | close (position_id : String)
  | refresh
  | statsQuery

/-- Apply one operation.  A `place` whose zero entry price raises leaves
the state unchanged (the exception fires before any mutation and
propagates to the caller); statistics queries are pure reads
(`get_statistics` above is a function of the state only). -/
def applyOp (env : PriceEnv) (now : ℕ) (s : TraderState) :
    LedgerOp → TraderState × List CapitalEvent
  | .place opp pct sid sname =>
    match place_order s opp pct sid sname now with
    | .error _ => (s, [])
    | .ok r => (r.2.1, r.2.2)
  | .close pid =>
    let r := close_position s env pid now
    (r.2.1, r.2.2)
  | .refresh => update_positions s env now
  | .statsQuery =>
    let _ := get_statistics s
    (s, [])

/-- Run a trace of ledger operations, concatenating capital events. -/
def runOps (env : PriceEnv) (now : ℕ) : TraderState → List LedgerOp → TraderState × List CapitalEvent
  | s, [] => (s, [])
  | s, op :: ops =>
    let r := applyOp env now s op
    let rest := runOps env now r.1 ops
    (rest.1, r.2 ++ rest.2)

/-- Embeds `AgentOrchestrator._calculate_position_size` (orchestrator.py:240-253):
`max_size` is the strategy's `risk_management["max_position_size"]` when
that key is present, the settings default otherwise; the result is
`min(max_size * opportunity.score, max_size)`.  The settings limit is
never consulted when the strategy defines its own. -/
def calculate_position_size (score : ℚ) (strategy_max : Option ℚ) (settings_max : ℚ) : ℚ :=
  let max_size := strategy_max.getD settings_max
  min (max_size * score) max_size

/-! ### Helper lemmas about the embedding's building blocks -/

theorem listMax_eq_none_iff (l : List ℚ) : listMax l = none ↔ l = [] := by
  cases l <;> simp [listMax]

theorem listMin_eq_none_iff (l : List ℚ) : listMin l = none ↔ l = [] := by
  cases l <;> simp [listMin]

theorem foldl_max_mem : ∀ (xs : List ℚ) (x : ℚ), xs.foldl max x = x ∨ xs.foldl max x ∈ xs
  | [], _ => Or.inl rfl
  | y :: ys, x => by
    rcases foldl_max_mem ys (max x y) with h | h
    · rcases max_choice x y with h2 | h2 <;> rw [List.foldl_cons, h, h2]
      · exact Or.inl rfl
      · exact Or.inr (List.mem_cons_self _ _)
    · exact Or.inr (List.mem_cons_of_mem _ h)

theorem foldl_min_mem : ∀ (xs : List ℚ) (x : ℚ), xs.foldl min x = x ∨ xs.foldl min x ∈ xs
  | [], _ => Or.inl rfl
  | y :: ys, x => by
    rcases foldl_min_mem ys (min x y) with h | h
    · rcases min_choice x y with h2 | h2 <;> rw [List.foldl_cons, h, h2]
      · exact Or.inl rfl
      · exact Or.inr (List.mem_cons_self _ _)
    · exact Or.inr (List.mem_cons_of_mem _ h)

theorem listMax_mem {l : List ℚ} {x : ℚ} (h : listMax l = some x) : x ∈ l := by
  cases l with
  | nil => simp [listMax] at h
  | cons y ys =>
    simp only [listMax, Option.some.injEq] at h
    rcases foldl_max_mem ys y with h2 | h2
    · rw [← h, h2]; exact List.mem_cons_self _ _
    · rw [← h]; exact List.mem_cons_of_mem _ h2

theorem listMin_mem {l : List ℚ} {x : ℚ} (h : listMin l = some x) : x ∈ l := by
  cases l with
  | nil => simp [listMin] at h
  | cons y ys =>
    simp only [listMin, Option.some.injEq] at h
    rcases foldl_min_mem ys y with h2 | h2
    · rw [← h, h2]; exact List.mem_cons_self _ _
    · rw [← h]; exact List.mem_cons_of_mem _ h2

theorem lookupPos_setPos_self : ∀ (l : List (String × Position)) (pid : String) (p : Position),
    lookupPos (setPos l pid p) pid = some p
  | [], pid, p => by simp [setPos, lookupPos]
  | (k, q) :: rest, pid, p => by
    by_cases h : k = pid
    · simp [setPos, lookupPos, h]
    · simp only [setPos, if_neg h, lookupPos]
      exact lookupPos_setPos_self rest pid p

/-- Sums of a mapped quantity are invariant under the stable sort. -/
theorem sum_map_insertionSort (l : List OrderBookEntry) (f : OrderBookEntry → ℚ) :
    ((l.insertionSort priceLe).map f).sum = (l.map f).sum :=
  ((l.perm_insertionSort priceLe).map f).sum_eq

theorem all_zero_of_nonneg_sum_nonpos :
    ∀ (l : List ℚ), (∀ x ∈ l, 0 ≤ x) → l.sum ≤ 0 → ∀ x ∈ l, x = 0
  | [], _, _, x, hx => absurd hx (List.not_mem_nil x)
  | y :: ys, hnn, hsum, x, hx => by
    simp only [List.sum_cons] at hsum
    have hy : 0 ≤ y := hnn y (List.mem_cons_self _ _)
    have hys : 0 ≤ ys.sum := List.sum_nonneg fun z hz => hnn z (List.mem_cons_of_mem _ hz)
    rcases List.mem_cons.mp hx with rfl | hx2
    · linarith
    · exact all_zero_of_nonneg_sum_nonpos ys
        (fun z hz => hnn z (List.mem_cons_of_mem _ hz)) (by linarith) x hx2

/-- The greedy walk consumes every level in full when the listed depth does
not exceed the remaining request (all level sizes nonnegative). -/
theorem impactWalk_consumes_all :
    ∀ (l : List OrderBookEntry) (remaining cost : ℚ) (levels : ℕ),
      (∀ e ∈ l, 0 ≤ e.size) →
      (l.map (·.size)).sum ≤ remaining →
      (impactWalk l remaining cost levels).1 = remaining - (l.map (·.size)).sum ∧
        (impactWalk l remaining cost levels).2.1 = cost + (l.map (fun e => e.price * e.size)).sum
  | [], remaining, cost, levels, _, _ => by simp [impactWalk]
  | a :: rest, remaining, cost, levels, hnn, hdepth => by
    simp only [List.map_cons, List.sum_cons] at hdepth ⊢
    by_cases hstop : remaining ≤ 0
    · have hzero : ∀ x ∈ (a :: rest).map (·.size), x = 0 := by
        refine all_zero_of_nonneg_sum_nonpos _ ?_ ?_
        · intro x hx
          rcases List.mem_map.mp hx with ⟨e, he, rfl⟩
          exact hnn e he
        · simp only [List.map_cons, List.sum_cons]
          linarith
      have ha : a.size = 0 := hzero a.size (by simp)
      have hrest : ∀ e ∈ rest, e.size = 0 := fun e he =>
        hzero e.size (by simp only [List.map_cons]; exact List.mem_cons_of_mem _ (List.mem_map_of_mem _ he))
      have hsum0 : (rest.map (·.size)).sum = 0 := by
        apply List.sum_eq_zero
        intro x hx
        rcases List.mem_map.mp hx with ⟨e, he, rfl⟩
        exact hrest e he
      have hcost0 : (rest.map (fun e => e.price * e.size)).sum = 0 := by
        apply List.sum_eq_zero
        intro x hx
        rcases List.mem_map.mp hx with ⟨e, he, rfl⟩
        rw [hrest e he, mul_zero]
      rw [impactWalk, if_pos hstop]
      constructor
      · simp [ha, hsum0]
      · simp [ha, hcost0]
    · push_neg at hstop
      have hasize : a.size ≤ remaining := by
        have : 0 ≤ (rest.map (·.size)).sum :=
          List.sum_nonneg fun x hx => by
            rcases List.mem_map.mp hx with ⟨e, he, rfl⟩
            exact hnn e (List.mem_cons_of_mem _ he)
        linarith
      have htake : min remaining a.size = a.size := min_eq_right hasize
      rw [impactWalk, if_neg (not_le.mpr hstop)]
      simp only [htake]
      have ih := impactWalk_consumes_all rest (remaining - a.size) (cost + a.size * a.price)
        (levels + 1) (fun e he => hnn e (List.mem_cons_of_mem _ he)) (by linarith)
      refine ⟨?_, ?_⟩
      · rw [ih.1]; ring
      · rw [ih.2]; ring

/-! ### Order-book invariants used by the claims -/

/-- Data-model invariant of the spec (section 3): every price in the book
is a probability in [0, 1]. -/
def pricesIn01 (ob : OrderBook) : Prop :=
  ∀ e ∈ ob.yes_bids ++ ob.yes_asks ++ ob.no_bids ++ ob.no_asks, 0 ≤ e.price ∧ e.price ≤ 1

theorem price_in01_of_mem_bids {ob : OrderBook} (h01 : pricesIn01 ob) {side : BookSide}
    {e : OrderBookEntry} (he : e ∈ ob.bidsOf side) : 0 ≤ e.price ∧ e.price ≤ 1 := by
  cases side <;> exact h01 e (by simp [OrderBook.bidsOf] at he ⊢; tauto)

theorem price_in01_of_mem_asks {ob : OrderBook} (h01 : pricesIn01 ob) {side : BookSide}
    {e : OrderBookEntry} (he : e ∈ ob.asksOf side) : 0 ≤ e.price ∧ e.price ≤ 1 := by
  cases side <;> exact h01 e (by simp [OrderBook.asksOf] at he ⊢; tauto)

/-- With probability-bounded prices, a defined mid price is positive (a
defined best bid or ask that passed the truthiness guard is a nonzero
element of the price list, hence positive). -/
theorem mid_price_pos {ob : OrderBook} {side : BookSide} {m : ℚ}
    (h01 : pricesIn01 ob) (hm : (get_best_bid_ask ob side).mid_price = some m) : 0 < m := by
  simp only [get_best_bid_ask, combineTruthy] at hm
  rcases hbb : listMax ((ob.bidsOf side).map (·.price)) with _ | b <;> rw [hbb] at hm
  · cases hm
  rcases hba : listMin ((ob.asksOf side).map (·.price)) with _ | a <;> rw [hba] at hm
  · cases hm
  change (if b ≠ 0 ∧ a ≠ 0 then some ((b + a) / 2) else none) = some m at hm
  by_cases hz : b ≠ 0 ∧ a ≠ 0
  · rw [if_pos hz] at hm
    have hb2 := listMax_mem hbb
    have ha2 := listMin_mem hba
    rcases List.mem_map.mp hb2 with ⟨eb, heb, hebp⟩
    rcases List.mem_map.mp ha2 with ⟨ea, hea, heap⟩
    have hbpos : 0 < b := lt_of_le_of_ne (hebp ▸ (price_in01_of_mem_bids h01 heb).1) (Ne.symm hz.1)
    have hapos : 0 < a := lt_of_le_of_ne (heap ▸ (price_in01_of_mem_asks h01 hea).1) (Ne.symm hz.2)
    have : m = (b + a) / 2 := (Option.some.injEq _ _ ▸ hm).symm
    rw [this]
    positivity
  · rw [if_neg hz] at hm
    cases hm

/-- C2.  Arbitrage contract: with probability-bounded prices, whenever
both mid prices are defined and total = mid(YES) + mid(NO), the operation
returns a buy arbitrage of magnitude 1 − total when total < 0.98, a sell
arbitrage of magnitude total − 1 when total > 1.02, and nothing in the
deadband; whenever either mid is undefined it returns nothing.  The spec
instances (0.40, 0.55) ↦ buy 0.05 and (0.55, 0.50) ↦ sell 0.05 follow by
instantiation (see the witness). -/
theorem arbitrage_contract (ob : OrderBook) (h01 : pricesIn01 ob) :
    (∀ y n, (get_best_bid_ask ob .YES).mid_price = some y →
      (get_best_bid_ask ob .NO).mid_price = some n →
      (y + n < 98 / 100 →
        get_arbitrage_opportunity ob =
          some { type := .buy_arbitrage, opportunity_pct := (1 - (y + n)) * 100,
                 yes_price := y, no_price := n, total := y + n,
                 profit_potential := 1 - (y + n) }) ∧
      (y + n > 102 / 100 →
        get_arbitrage_opportunity ob =
          some { type := .sell_arbitrage, opportunity_pct := ((y + n) - 1) * 100,
                 yes_price := y, no_price := n, total := y + n,
                 profit_potential := (y + n) - 1 }) ∧
      (98 / 100 ≤ y + n → y + n ≤ 102 / 100 → get_arbitrage_opportunity ob = none)) ∧
    ((get_best_bid_ask ob .YES).mid_price = none ∨ (get_best_bid_ask ob .NO).mid_price = none →
      get_arbitrage_opportunity ob = none) := by
  constructor
  · intro y n hy hn
    have hypos := mid_price_pos h01 hy
    have hnpos := mid_price_pos h01 hn
    have hguard : y ≠ 0 ∧ n ≠ 0 := ⟨ne_of_gt hypos, ne_of_gt hnpos⟩
    refine ⟨?_, ?_, ?_⟩
    · intro hlt
      simp only [get_arbitrage_opportunity, hy, hn, if_pos hguard, if_pos hlt]
    · intro hgt
      simp only [get_arbitrage_opportunity, hy, hn, if_pos hguard,
        if_neg (not_lt.mpr (by linarith : (98 : ℚ) / 100 ≤ y + n)), if_pos hgt]
    · intro hge hle
      simp only [get_arbitrage_opportunity, hy, hn, if_pos hguard,
        if_neg (not_lt.mpr hge), if_neg (not_lt.mpr hle)]
  · intro h
    rcases h with h | h
    · rcases h2 : (get_best_bid_ask ob .NO).mid_price with _ | n <;>
        simp [get_arbitrage_opportunity, h, h2]
    · rcases h2 : (get_best_bid_ask ob .YES).mid_price with _ | y <;>
        simp [get_arbitrage_opportunity, h, h2]

/-- Book realizing the spec's buy instance: YES mid 0.40, NO mid 0.55. -/
def bookBuyExample : OrderBook :=
  { market_id := "m"
    yes_bids := [⟨2/5, 1⟩], yes_asks := [⟨2/5, 1⟩]
    no_bids := [⟨11/20, 1⟩], no_asks := [⟨11/20, 1⟩] }

/-- Book realizing the spec's sell instance: YES mid 0.55, NO mid 0.50. -/
def bookSellExample : OrderBook :=
  { market_id := "m"
    yes_bids := [⟨11/20, 1⟩], yes_asks := [⟨11/20, 1⟩]
    no_bids := [⟨1/2, 1⟩], no_asks := [⟨1/2, 1⟩] }

/-- Witness for C2: both spec instances, obtained by instantiating the
contract theorem. -/
theorem arbitrage_contract_witness :
    get_arbitrage_opportunity bookBuyExample =
      some { type := .buy_arbitrage, opportunity_pct := 5, yes_price := 2/5,
             no_price := 11/20, total := 19/20, profit_potential := 1/20 }
    ∧ get_arbitrage_opportunity bookSellExample =
      some { type := .sell_arbitrage, opportunity_pct := 5, yes_price := 11/20,
             no_price := 1/2, total := 21/20, profit_potential := 1/20 } := by
  constructor
  · have h := ((arbitrage_contract bookBuyExample
        (by intro e he; simp [bookBuyExample] at he
            rcases he with rfl | rfl <;> constructor <;> norm_num)).1
        (2/5) (11/20)
        (by simp [bookBuyExample, get_best_bid_ask, listMax, listMin, combineTruthy,
              OrderBook.bidsOf, OrderBook.asksOf])
        (by simp [bookBuyExample, get_best_bid_ask, listMax, listMin, combineTruthy,
              OrderBook.bidsOf, OrderBook.asksOf])).1 (by norm_num)
    rw [h]
    norm_num
  · have h := (((arbitrage_contract bookSellExample
        (by intro e he; simp [bookSellExample] at he
            rcases he with rfl | rfl <;> constructor <;> norm_num)).1
        (11/20) (1/2)
        (by simp [bookSellExample, get_best_bid_ask, listMax, listMin, combineTruthy,
              OrderBook.bidsOf, OrderBook.asksOf])
        (by simp [bookSellExample, get_best_bid_ask, listMax, listMin, combineTruthy,
              OrderBook.bidsOf, OrderBook.asksOf])).2).1 (by norm_num)
    rw [h]
    norm_num

/-- Book with a (legal, in-[0,1]) zero-price bid level showing that a
defined best bid can still suppress spread and mid. -/
def bookZeroBidExample : OrderBook :=
  { market_id := "m", yes_bids := [⟨0, 1⟩], yes_asks := [⟨1/2, 1⟩] }

/-- The truthiness guard collapses to `none` as soon as either operand is
missing or zero. -/
theorem combineTruthy_eq_none {bid ask : Option ℚ}
    (h : bid = none ∨ ask = none ∨ bid = some 0 ∨ ask = some 0) (f : ℚ → ℚ → ℚ) :
    combineTruthy bid ask f = none := by
  rcases h with rfl | rfl | rfl | rfl
  · rfl
  · cases bid <;> rfl
  · cases ask <;> simp [combineTruthy]
  · cases bid <;> simp [combineTruthy]

/-- Counterexample to C3 as stated: on this book the YES best bid and
best ask are both defined (some 0 and some 1/2), yet spread and mid are
undefined — because the Python guard `if (best_bid and best_ask)` treats
the zero bid as falsy.  The claim says spread/mid are undefined exactly
when bid or ask is undefined. -/
theorem bestBidAsk_zero_counterexample :
    (get_best_bid_ask bookZeroBidExample .YES).best_bid = some 0
    ∧ (get_best_bid_ask bookZeroBidExample .YES).best_ask = some (1/2)
    ∧ (get_best_bid_ask bookZeroBidExample .YES).spread = none
    ∧ (get_best_bid_ask bookZeroBidExample .YES).mid_price = none := by
  refine ⟨?_, ?_, ?_, ?_⟩ <;>
    simp [get_best_bid_ask, bookZeroBidExample, listMax, listMin, combineTruthy,
      OrderBook.bidsOf, OrderBook.asksOf]

/-- C3 (amended).  For every order book and side: the best bid is
undefined exactly when that side's bid list is empty, and the best ask
exactly when the ask list is empty (never zero in place of undefined);
spread and mid equal ask − bid and (bid + ask)/2 whenever best bid and
best ask are both defined and both nonzero, and are undefined whenever
either is undefined or either equals zero. -/
theorem bestBidAsk_amended (ob : OrderBook) (side : BookSide) :
    ((get_best_bid_ask ob side).best_bid = none ↔ ob.bidsOf side = [])
    ∧ ((get_best_bid_ask ob side).best_ask = none ↔ ob.asksOf side = [])
    ∧ (∀ b a, (get_best_bid_ask ob side).best_bid = some b →
        (get_best_bid_ask ob side).best_ask = some a → b ≠ 0 → a ≠ 0 →
        (get_best_bid_ask ob side).spread = some (a - b)
          ∧ (get_best_bid_ask ob side).mid_price = some ((b + a) / 2))
    ∧ ((get_best_bid_ask ob side).best_bid = none ∨ (get_best_bid_ask ob side).best_ask = none
        ∨ (get_best_bid_ask ob side).best_bid = some 0
        ∨ (get_best_bid_ask ob side).best_ask = some 0 →
        (get_best_bid_ask ob side).spread = none
          ∧ (get_best_bid_ask ob side).mid_price = none) := by
  refine ⟨?_, ?_, ?_, ?_⟩
  · rw [show (get_best_bid_ask ob side).best_bid = listMax ((ob.bidsOf side).map (·.price)) from rfl,
      listMax_eq_none_iff, List.map_eq_nil_iff]
  · rw [show (get_best_bid_ask ob side).best_ask = listMin ((ob.asksOf side).map (·.price)) from rfl,
      listMin_eq_none_iff, List.map_eq_nil_iff]
  · intro b a hb ha hb0 ha0
    simp only [get_best_bid_ask] at hb ha ⊢
    rw [hb, ha]
    constructor <;> simp [combineTruthy, hb0, ha0]
  · intro h
    simp only [get_best_bid_ask] at h ⊢
    exact ⟨combineTruthy_eq_none h _, combineTruthy_eq_none h _⟩

/-- Book with one YES bid at 0.40 and one YES ask at 0.60. -/
def bookSpreadExample : OrderBook :=
  { market_id := "w", yes_bids := [⟨2/5, 1⟩], yes_asks := [⟨3/5, 1⟩] }

/-- Witness for C3: the amended characterization applied to a concrete
book with one bid at 0.40 and one ask at 0.60. -/
theorem bestBidAsk_amended_witness :
    (get_best_bid_ask bookSpreadExample .YES).spread = some (1/5)
    ∧ (get_best_bid_ask bookSpreadExample .YES).mid_price = some (1/2) := by
  have h := (bestBidAsk_amended bookSpreadExample .YES).2.2.1 (2/5) (3/5)
    (by simp [get_best_bid_ask, listMax, OrderBook.bidsOf, bookSpreadExample])
    (by simp [get_best_bid_ask, listMin, OrderBook.asksOf, bookSpreadExample])
    (by norm_num) (by norm_num)
  refine ⟨?_, ?_⟩
  · rw [h.1]; norm_num
  · rw [h.2]; norm_num

/-- Book with a single ask level of size 1 at price 0.50. -/
def bookThinAskExample : OrderBook :=
  { market_id := "m", yes_asks := [⟨1/2, 1⟩] }

/-- Counterexample to C4 as stated: requesting size 2 against a book with
1 unit of depth at 0.50 fills 1 unit for a total cost of 0.50, but the
returned average price is 0.25 = cost / requested size, not
0.50 = cost / filled size as the claim demands
(`avg_price = total_cost / size` divides by the requested size). -/
theorem marketImpact_filled_size_counterexample :
    (get_market_impact bookThinAskExample .YES 2).total_cost = 1/2
    ∧ impactFilledSize bookThinAskExample .YES 2 = 1
    ∧ (get_market_impact bookThinAskExample .YES 2).average_price = 1/4
    ∧ (get_market_impact bookThinAskExample .YES 2).average_price
        ≠ (get_market_impact bookThinAskExample .YES 2).total_cost
            / impactFilledSize bookThinAskExample .YES 2 := by
  refine ⟨?_, ?_, ?_, ?_⟩ <;>
    · simp [get_market_impact, impactFilledSize, bookThinAskExample, impactWalk,
        get_best_bid_ask, listMax, listMin, combineTruthy, OrderBook.bidsOf, OrderBook.asksOf]
      norm_num

/-- C4 (amended).  For every order book, side and requested size > 0 (with
nonnegative level sizes), the market-impact walk consumes the ask ladder
greedily in ascending price order; when the book's total ask depth does
not exceed the request, every level is consumed in full — the remainder is
simply left unfilled, without error — and the returned average price is
the total cost divided by the *requested* size (it agrees with the
filled-size average only on full fills). -/
theorem marketImpact_amended (ob : OrderBook) (side : BookSide) (size : ℚ)
    (hsz : 0 < size) (hnn : ∀ e ∈ ob.asksOf side, 0 ≤ e.size) :
    (get_market_impact ob side size).average_price
        = (get_market_impact ob side size).total_cost / size
    ∧ (askDepth ob side ≤ size →
        (get_market_impact ob side size).total_cost
            = ((ob.asksOf side).map (fun e => e.price * e.size)).sum
        ∧ impactFilledSize ob side size = askDepth ob side) := by
  have hnn2 : ∀ e ∈ (ob.asksOf side).insertionSort priceLe, 0 ≤ e.size := by
    intro e he
    exact hnn e ((List.mem_insertionSort priceLe).mp he)
  constructor
  · simp only [get_market_impact, if_pos hsz]
  · intro hdepth
    have hsizes : (((ob.asksOf side).insertionSort priceLe).map (·.size)).sum ≤ size := by
      rw [sum_map_insertionSort]
      exact hdepth
    have hwalk := impactWalk_consumes_all ((ob.asksOf side).insertionSort priceLe)
      size 0 0 hnn2 hsizes
    constructor
    · show (impactWalk ((ob.asksOf side).insertionSort priceLe) size 0 0).2.1 = _
      rw [hwalk.2, zero_add, sum_map_insertionSort]
    · show size - (impactWalk ((ob.asksOf side).insertionSort priceLe) size 0 0).1 = _
      rw [hwalk.1, sum_map_insertionSort]
      show size - (size - askDepth ob side) = askDepth ob side
      ring

/-- Book with two ask levels, total depth 3. -/
def bookTwoAsksExample : OrderBook :=
  { market_id := "m", yes_asks := [⟨3/5, 2⟩, ⟨1/2, 1⟩] }

/-- Witness for C4: requesting 4 units against total depth 3 fills all
levels (cost 0.5·1 + 0.6·2 = 1.7) and averages over the requested size. -/
theorem marketImpact_amended_witness :
    (get_market_impact bookTwoAsksExample .YES 4).total_cost = 17/10
    ∧ impactFilledSize bookTwoAsksExample .YES 4 = 3
    ∧ (get_market_impact bookTwoAsksExample .YES 4).average_price = 17/40 := by
  have h := marketImpact_amended bookTwoAsksExample .YES 4 (by norm_num)
    (by intro e he
        simp [bookTwoAsksExample, OrderBook.asksOf] at he
        rcases he with rfl | rfl <;> norm_num)
  have h2 := h.2 (by simp [askDepth, bookTwoAsksExample, OrderBook.asksOf]; norm_num)
  refine ⟨?_, ?_, ?_⟩
  · rw [h2.1]
    simp [bookTwoAsksExample, OrderBook.asksOf]
    norm_num
  · rw [h2.2]
    simp [askDepth, bookTwoAsksExample, OrderBook.asksOf]
    norm_num
  · rw [h.1, h2.1]
    simp [bookTwoAsksExample, OrderBook.asksOf]
    norm_num

/-- When neither filter is truthy, both filters are the identity and the
local name still aliases the buffer. -/
theorem filters_id_of_not_applied {ms : Option ℚ} {ot : Option OpportunityType}
    (h : filtersApplied ms ot = false) (l : List Opportunity) :
    typeFiltered ot (scoreFiltered ms l) = l := by
  rcases ot with _ | t
  · rcases ms with _ | m
    · rfl
    · simp only [filtersApplied, Option.isSome_none, Bool.or_false, decide_eq_false_iff_not,
        not_not] at h
      simp [typeFiltered, scoreFiltered, h]
  · simp [filtersApplied] at h

/-- Opportunity with score 0.2. -/
def oppLowExample : Opportunity :=
  { id := "a", market_id := "m", opportunity_type := .arbitrage, side := .YES,
    score := 1/5, entry_price := 1/2 }

/-- Opportunity with score 0.9. -/
def oppHighExample : Opportunity :=
  { id := "b", market_id := "m", opportunity_type := .arbitrage, side := .YES,
    score := 9/10, entry_price := 1/2 }

/-- Counterexample to C5 as stated: with no score filter and no type
filter the local `opportunities` name aliases the scanner's buffer, so the
in-place `sort` reorders the buffer itself — the call is not a pure read.
Here a buffer `[low, high]` becomes `[high, low]` after the call. -/
theorem getOpportunities_mutation_counterexample :
    (get_opportunities ⟨[oppLowExample, oppHighExample]⟩ none none 100).2.opportunities
        = [oppHighExample, oppLowExample]
    ∧ (⟨[oppLowExample, oppHighExample]⟩ : ScannerState).opportunities
        = [oppLowExample, oppHighExample]
    ∧ ([oppHighExample, oppLowExample] : List Opportunity) ≠ [oppLowExample, oppHighExample] := by
  refine ⟨?_, rfl, ?_⟩
  · norm_num [get_opportunities, filtersApplied, typeFiltered, scoreFiltered,
      oppLowExample, oppHighExample, scoreGe, List.insertionSort, List.orderedInsert]
  · intro h
    have h2 := List.head_eq_of_cons_eq h
    rw [oppHighExample, oppLowExample] at h2
    simp [Opportunity.mk.injEq] at h2

/-- C5 (amended).  The returned list is the retained opportunities with
the score/type filters applied, stably sorted by score descending and
truncated to the limit; the buffer keeps exactly the same elements (a
permutation), and is entirely untouched when at least one filter is
truthy — but when both filters are absent (or the score filter is zero)
the buffer itself is re-ordered in place into score-descending order.
Calling the operation twice with the same arguments and no intervening
mutation still returns identical results and leaves an identical state. -/
theorem getOpportunities_amended (s : ScannerState) (ms : Option ℚ)
    (ot : Option OpportunityType) (lim : ℕ) :
    (get_opportunities s ms ot lim).1
        = ((typeFiltered ot (scoreFiltered ms s.opportunities)).insertionSort scoreGe).take lim
    ∧ (get_opportunities s ms ot lim).2.opportunities.Perm s.opportunities
    ∧ (filtersApplied ms ot = true → (get_opportunities s ms ot lim).2 = s)
    ∧ (filtersApplied ms ot = false →
        (get_opportunities s ms ot lim).2.opportunities
          = s.opportunities.insertionSort scoreGe)
    ∧ (get_opportunities (get_opportunities s ms ot lim).2 ms ot lim).1
        = (get_opportunities s ms ot lim).1
    ∧ (get_opportunities (get_opportunities s ms ot lim).2 ms ot lim).2
        = (get_opportunities s ms ot lim).2 := by
  cases hf : filtersApplied ms ot
  · have hid := filters_id_of_not_applied hf
    have hsorted := (List.sorted_insertionSort scoreGe s.opportunities).insertionSort_eq
    refine ⟨rfl, ?_, ?_, ?_, ?_, ?_⟩
    · simp only [get_opportunities, hf, Bool.false_eq_true, if_false, hid]
      exact s.opportunities.perm_insertionSort scoreGe
    · intro h; simp at h
    · intro _
      simp only [get_opportunities, hf, Bool.false_eq_true, if_false, hid]
    · simp only [get_opportunities, hf, Bool.false_eq_true, if_false, hid, hsorted]
    · simp only [get_opportunities, hf, Bool.false_eq_true, if_false, hid, hsorted]
  · refine ⟨rfl, ?_, ?_, ?_, ?_, ?_⟩
    · simp only [get_opportunities, hf, if_true]
      exact List.Perm.refl _
    · intro _
      simp only [get_opportunities, hf, if_true]
    · intro h; simp at h
    · simp only [get_opportunities, hf, if_true]
    · simp only [get_opportunities, hf, if_true]

/-- Witness for C5: a truthy score filter leaves the state untouched, and
a second unfiltered call returns exactly what the first returned. -/
theorem getOpportunities_amended_witness :
    (get_opportunities ⟨[oppLowExample, oppHighExample]⟩ (some (1/2)) none 100).2
        = ⟨[oppLowExample, oppHighExample]⟩
    ∧ (get_opportunities
          (get_opportunities ⟨[oppLowExample, oppHighExample]⟩ none none 100).2
          none none 100).1
        = (get_opportunities ⟨[oppLowExample, oppHighExample]⟩ none none 100).1 := by
  constructor
  · exact (getOpportunities_amended ⟨[oppLowExample, oppHighExample]⟩
      (some (1/2)) none 100).2.2.1 (by norm_num [filtersApplied])
  · exact (getOpportunities_amended ⟨[oppLowExample, oppHighExample]⟩
      none none 100).2.2.2.2.1

/-- Core merge behaviour of `_execute_order` when a position already
exists under the order's (market, side) key: the stored position becomes
the weighted-average merge marked to the fill price. -/
theorem execute_order_merge (s : TraderState) (order : Order) (opp : Opportunity)
    (sid sname : Option String) (now : ℕ) (pos : Position)
    (hpos : lookupPos s.positions (order.market_id ++ "_" ++ order.side.value) = some pos) :
    lookupPos (execute_order s order opp sid sname now).2.1.positions
        (order.market_id ++ "_" ++ order.side.value)
      = some (Position.update_pnl
          { pos with
            entry_price := (pos.entry_price * pos.size + order.price * order.size)
                / (pos.size + order.size)
            size := pos.size + order.size }
          order.price) := by
  simp only [execute_order, hpos]
  exact lookupPos_setPos_self _ _ _

/-- C6.  Weighted-average cost basis: when an accepted placement fills
into an already-open position under the same (market, side) key, the
merged position's entry price is the size-weighted average of the old
entry and the fill, and its size is the sum.  The fill size is
equity × pct / entryPrice as computed by `place_order`. -/
theorem weighted_average_entry (s : TraderState) (opp : Opportunity) (pct : ℚ)
    (sid sname : Option String) (now : ℕ) (pos : Position)
    (hpos : lookupPos s.positions (opp.market_id ++ "_" ++ opp.side.value) = some pos)
    (hep : opp.entry_price ≠ 0)
    (hcap : get_equity s * pct ≤ s.capital)
    (hsz : pos.size + get_equity s * pct / opp.entry_price ≠ 0) :
    ((place_order s opp pct sid sname now).toOption.map (fun r =>
        (lookupPos r.2.1.positions (opp.market_id ++ "_" ++ opp.side.value)).map
          (fun p => (p.entry_price, p.size))))
      = some (some
          ((pos.entry_price * pos.size
              + opp.entry_price * (get_equity s * pct / opp.entry_price))
            / (pos.size + get_equity s * pct / opp.entry_price),
           pos.size + get_equity s * pct / opp.entry_price)) := by
  have hmerge := execute_order_merge s
    { id := some ("order_" ++ toString now), market_id := opp.market_id, side := opp.side,
      price := opp.entry_price, size := get_equity s * pct / opp.entry_price }
    opp sid sname now pos hpos
  dsimp only at hmerge
  simp only [place_order, if_neg hep, if_neg (not_lt.mpr hcap), Except.toOption,
    Option.map_some]
  simp [Position.update_pnl, hmerge]

/-- Ledger holding one LONG position of 10 units at entry 0.40. -/
def posEntryFortyExample : Position :=
  { id := "m_YES", market_id := "m", side := .LONG, size := 10,
    entry_price := 2/5, current_price := 2/5 }

/-- Ledger state for the weighted-average witness. -/
def ledgerMergeExample : TraderState :=
  { capital := 100, initial_capital := 100, positions := [("m_YES", posEntryFortyExample)] }

/-- Opportunity whose fill price is 0.60 on the same (market, side). -/
def oppEntrySixtyExample : Opportunity :=
  { id := "x", market_id := "m", opportunity_type := .arbitrage, side := .YES,
    score := 1, entry_price := 3/5 }

/-- Witness for C6: 10 units at 0.40 plus 10 units at 0.60 (fill size
100 × 0.06 / 0.6 = 10) merge to entry exactly 0.50 and size exactly 20. -/
theorem weighted_average_entry_witness :
    ((place_order ledgerMergeExample oppEntrySixtyExample (6/100) none none 0).toOption.map
        (fun r => (lookupPos r.2.1.positions
            (oppEntrySixtyExample.market_id ++ "_" ++ oppEntrySixtyExample.side.value)).map
          (fun p => (p.entry_price, p.size))))
      = some (some (1/2, 20)) := by
  have h := weighted_average_entry ledgerMergeExample oppEntrySixtyExample (6/100) none none 0
    posEntryFortyExample
    (by simp [ledgerMergeExample, posEntryFortyExample, oppEntrySixtyExample,
          lookupPos, OrderSide.value])
    (by norm_num [oppEntrySixtyExample])
    (by norm_num [get_equity, get_unrealized_pnl, ledgerMergeExample, posEntryFortyExample])
    (by norm_num [get_equity, get_unrealized_pnl, ledgerMergeExample, posEntryFortyExample,
          oppEntrySixtyExample])
  rw [h]
  norm_num [ledgerMergeExample, posEntryFortyExample, oppEntrySixtyExample,
    get_equity, get_unrealized_pnl]

/-- C7 (amended).  Insufficient-capital rejection is a no-op for every
opportunity whose entry price is nonzero: when the computed position
value (equity × pct) exceeds the current capital, `place_order` returns
no order and leaves the entire ledger state unchanged, raising nothing.
(With a zero entry price the share-count division raises before the
capital check — see the counterexample.) -/
theorem insufficient_capital_noop (s : TraderState) (opp : Opportunity) (pct : ℚ)
    (sid sname : Option String) (now : ℕ)
    (hep : opp.entry_price ≠ 0)
    (hover : get_equity s * pct > s.capital) :
    place_order s opp pct sid sname now = .ok (none, s, []) := by
  simp only [place_order, if_neg hep, if_pos hover]

/-- Ledger with 100 capital and no open positions. -/
def richLedgerExample : TraderState := { capital := 100, initial_capital := 100 }

/-- Opportunity priced at 0.50. -/
def oppPricedExample : Opportunity :=
  { id := "x", market_id := "m", opportunity_type := .arbitrage, side := .YES,
    score := 1, entry_price := 1/2 }

/-- Witness for C7: position value 200 exceeds capital 100 and the call
is a complete no-op. -/
theorem insufficient_capital_noop_witness :
    place_order richLedgerExample oppPricedExample 2 none none 0
      = .ok (none, richLedgerExample, []) :=
  insufficient_capital_noop _ _ _ _ _ _ (by norm_num [oppPricedExample])
    (by norm_num [get_equity, get_unrealized_pnl, richLedgerExample])

/-- Opportunity with entry price exactly zero. -/
def oppZeroPriceExample : Opportunity :=
  { id := "z", market_id := "m", opportunity_type := .arbitrage, side := .YES,
    score := 1, entry_price := 0 }

/-- Counterexample to C7 as stated: with a zero entry price and position
value 200 > capital 100 the code raises `decimal.DivisionByZero` while
computing the share count (before the capital check) instead of returning
the claimed no-op result. -/
theorem insufficient_capital_raises_counterexample :
    get_equity richLedgerExample * 2 > richLedgerExample.capital
    ∧ place_order richLedgerExample oppZeroPriceExample 2 none none 0 = .error () := by
  constructor
  · norm_num [get_equity, get_unrealized_pnl, richLedgerExample]
  · simp [place_order, oppZeroPriceExample]

/-- C10.  Frame property of a position increase: merging a fill into an
existing position changes only its entry price, size, mark price and
unrealized PnL; stop-loss, take-profit, side, strategy attribution, the
opened-at timestamp, identifiers, realized PnL and closed-at all keep
their previous values — in particular the incoming opportunity's
stop-loss and target price are ignored (the equalities hold for every
`opp`). -/
theorem increase_frame (s : TraderState) (order : Order) (opp : Opportunity)
    (sid sname : Option String) (now : ℕ) (pos : Position)
    (hpos : lookupPos s.positions (order.market_id ++ "_" ++ order.side.value) = some pos) :
    (lookupPos (execute_order s order opp sid sname now).2.1.positions
        (order.market_id ++ "_" ++ order.side.value)).map
      (fun p => (p.stop_loss, p.take_profit, p.side, p.strategy_id, p.strategy_name,
                 p.opened_at, p.id, p.market_id, p.realized_pnl, p.closed_at,
                 p.size, p.current_price, p.entry_price, p.unrealized_pnl))
      = some (pos.stop_loss, pos.take_profit, pos.side, pos.strategy_id, pos.strategy_name,
              pos.opened_at, pos.id, pos.market_id, pos.realized_pnl, pos.closed_at,
              pos.size + order.size, order.price,
              (pos.entry_price * pos.size + order.price * order.size)
                / (pos.size + order.size),
              if pos.side = PositionSide.LONG
                then (order.price
                    - (pos.entry_price * pos.size + order.price * order.size)
                        / (pos.size + order.size)) * (pos.size + order.size)
                else ((pos.entry_price * pos.size + order.price * order.size)
                        / (pos.size + order.size) - order.price)
                    * (pos.size + order.size)) := by
  rw [execute_order_merge s order opp sid sname now pos hpos]
  simp [Position.update_pnl]

/-- Position with stop-loss, take-profit, strategy attribution and an
opened-at tick, used to observe the frame of an increase. -/
def posFramedExample : Position :=
  { id := "m_YES", market_id := "m", side := .LONG, size := 10,
    entry_price := 2/5, current_price := 2/5, strategy_id := some "sg",
    strategy_name := some "sg_name", stop_loss := some (1/3),
    take_profit := some (7/10), opened_at := 5 }

/-- Ledger holding the framed position. -/
def ledgerFramedExample : TraderState :=
  { capital := 100, initial_capital := 100, positions := [("m_YES", posFramedExample)] }

/-- Order adding 5 units at 0.60 to the framed position. -/
def orderAddExample : Order :=
  { market_id := "m", side := .YES, price := 3/5, size := 5 }

/-- Opportunity carrying a *different* stop-loss and target, which the
merge must ignore. -/
def oppIgnoredExample : Opportunity :=
  { id := "y", market_id := "m", opportunity_type := .arbitrage, side := .YES,
    score := 1, entry_price := 3/5, target_price := some (99/100),
    stop_loss := some (1/100) }

/-- Witness for C10: after adding 5 @ 0.60 to 10 @ 0.40, the stop-loss,
take-profit, strategy attribution and opened-at are the original ones
(not the new opportunity's), while size, mark, entry and unrealized PnL
take the merged values 15, 0.60, 7/15 and 2. -/
theorem increase_frame_witness :
    (lookupPos (execute_order ledgerFramedExample orderAddExample oppIgnoredExample
        (some "sid2") (some "sn2") 9).2.1.positions
        (orderAddExample.market_id ++ "_" ++ orderAddExample.side.value)).map
      (fun p => (p.stop_loss, p.take_profit, p.side, p.strategy_id, p.strategy_name,
                 p.opened_at, p.id, p.market_id, p.realized_pnl, p.closed_at,
                 p.size, p.current_price, p.entry_price, p.unrealized_pnl))
      = some (some (1/3), some (7/10), PositionSide.LONG, some "sg", some "sg_name",
              5, "m_YES", "m", 0, none, 15, 3/5, 7/15, 2) := by
  rw [increase_frame ledgerFramedExample orderAddExample oppIgnoredExample
    (some "sid2") (some "sn2") 9 posFramedExample
    (by simp [ledgerFramedExample, posFramedExample, orderAddExample, lookupPos, OrderSide.value])]
  norm_num [posFramedExample, orderAddExample]

/-- C8 (amended).  Characterization of `close_position`: a no-op
(returns none, state untouched, no capital event) when the id is not an
open position, when the order book is unavailable, when the best price on
the position's side is undefined, or — beyond the claim as stated — when
that best price is zero (the truthiness guard `if not exit_price:`);
otherwise it credits exitPrice × size to capital, appends exactly one
closing trade carrying the directional realized PnL, and moves the
position from the open set to the closed history. -/
theorem closePosition_amended (s : TraderState) (env : PriceEnv) (pid : String) (now : ℕ) :
    (lookupPos s.positions pid = none → close_position s env pid now = (none, s, []))
    ∧ (∀ pos, lookupPos s.positions pid = some pos →
        (env pos.market_id = none → close_position s env pid now = (none, s, []))
        ∧ (∀ ob, env pos.market_id = some ob →
            ((if pos.side = PositionSide.LONG then get_best_yes_price ob
                else get_best_no_price ob) = none →
              close_position s env pid now = (none, s, []))
            ∧ ((if pos.side = PositionSide.LONG then get_best_yes_price ob
                else get_best_no_price ob) = some 0 →
              close_position s env pid now = (none, s, []))
            ∧ (∀ x, (if pos.side = PositionSide.LONG then get_best_yes_price ob
                else get_best_no_price ob) = some x → x ≠ 0 →
              close_position s env pid now =
                (some { pos with
                    realized_pnl := if pos.side = PositionSide.LONG
                      then (x - pos.entry_price) * pos.size
                      else (pos.entry_price - x) * pos.size
                    current_price := x
                    closed_at := some now },
                 { s with
                   capital := s.capital + x * pos.size
                   trade_history := s.trade_history ++
                     [{ id := "trade_" ++ toString now
                        market_id := pos.market_id
                        side := if pos.side = PositionSide.LONG then OrderSide.YES
                          else OrderSide.NO
                        price := x
                        size := pos.size
                        strategy_id := pos.strategy_id
                        pnl := if pos.side = PositionSide.LONG
                          then (x - pos.entry_price) * pos.size
                          else (pos.entry_price - x) * pos.size }]
                   closed_positions := s.closed_positions ++
                     [{ pos with
                        realized_pnl := if pos.side = PositionSide.LONG
                          then (x - pos.entry_price) * pos.size
                          else (pos.entry_price - x) * pos.size
                        current_price := x
                        closed_at := some now }]
                   positions := removePos s.positions pid },
                 [CapitalEvent.closeProceeds x pos.size])))) := by
  refine ⟨?_, ?_⟩
  · intro h
    simp only [close_position, h]
  · intro pos hpos
    refine ⟨?_, ?_⟩
    · intro h
      simp only [close_position, hpos, h]
    · intro ob hob
      refine ⟨?_, ?_, ?_⟩
      · intro h
        simp only [close_position, hpos, hob, h]
      · intro h
        simp only [close_position, hpos, hob, h]
        simp
      · intro x hx hx0
        simp only [close_position, hpos, hob, hx, if_neg hx0]

/-- Position LONG 10 units at entry 0.50 under key "m_YES". -/
def posCloseExample : Position :=
  { id := "m_YES", market_id := "m", side := .LONG, size := 10,
    entry_price := 1/2, current_price := 1/2, strategy_id := some "sg" }

/-- Ledger holding that position with capital 100. -/
def ledgerCloseExample : TraderState :=
  { capital := 100, initial_capital := 100, positions := [("m_YES", posCloseExample)] }

/-- Book whose best YES bid is 0.60. -/
def bookSixtyBidExample : OrderBook :=
  { market_id := "m", yes_bids := [⟨3/5, 4⟩] }

/-- Price feed serving that book for market "m". -/
def envSixtyExample : PriceEnv :=
  fun m => if m = "m" then some bookSixtyBidExample else none

/-- Witness for C8: closing the 10-unit LONG at exit 0.60 credits 6 to
capital (106), books realized PnL (0.6 − 0.5) × 10 = 1 on the closing
trade, empties the open set and archives the position. -/
theorem closePosition_amended_witness :
    (close_position ledgerCloseExample envSixtyExample "m_YES" 7).2.1.capital = 106
    ∧ (close_position ledgerCloseExample envSixtyExample "m_YES" 7).2.1.positions = []
    ∧ ((close_position ledgerCloseExample envSixtyExample "m_YES" 7).2.1.trade_history.map
        (·.pnl)) = [1]
    ∧ (close_position ledgerCloseExample envSixtyExample "m_YES" 7).2.2
        = [CapitalEvent.closeProceeds (3/5) 10] := by
  have h := (((closePosition_amended ledgerCloseExample envSixtyExample "m_YES" 7).2
      posCloseExample (by simp [ledgerCloseExample, lookupPos])).2
      bookSixtyBidExample (by simp [envSixtyExample, posCloseExample])).2.2 (3/5)
      (by simp [posCloseExample, get_best_yes_price, bookSixtyBidExample, listMax])
      (by norm_num)
  rw [h]
  refine ⟨?_, ?_, ?_, rfl⟩
  · norm_num [ledgerCloseExample, posCloseExample]
  · simp [ledgerCloseExample, removePos]
  · norm_num [ledgerCloseExample, posCloseExample]

/-- Book whose only YES bid sits at price zero. -/
def bookZeroDepthExample : OrderBook :=
  { market_id := "m", yes_bids := [⟨0, 5⟩] }

/-- Price feed serving the zero-bid book for market "m". -/
def envZeroBidExample : PriceEnv :=
  fun m => if m = "m" then some bookZeroDepthExample else none

/-- Position LONG 10 units at entry 0.50 whose market has the zero-bid
book. -/
def posZeroCloseExample : Position :=
  { id := "m_YES", market_id := "m", side := .LONG, size := 10,
    entry_price := 1/2, current_price := 1/2 }

/-- Ledger holding that position. -/
def ledgerZeroCloseExample : TraderState :=
  { capital := 100, initial_capital := 100, positions := [("m_YES", posZeroCloseExample)] }

/-- Counterexample to C8 as stated: the position id is open, the order
book is available and the best YES price is *defined* (some 0), yet
`close_position` is a no-op — the code's truthiness guard treats the zero
price as unavailable, where the claim says a defined best price leads to
a close. -/
theorem closePosition_zero_price_counterexample :
    lookupPos ledgerZeroCloseExample.positions "m_YES" = some posZeroCloseExample
    ∧ envZeroBidExample posZeroCloseExample.market_id = some bookZeroDepthExample
    ∧ get_best_yes_price bookZeroDepthExample = some 0
    ∧ close_position ledgerZeroCloseExample envZeroBidExample "m_YES" 0
        = (none, ledgerZeroCloseExample, []) := by
  refine ⟨by simp [ledgerZeroCloseExample, lookupPos], by simp [envZeroBidExample, posZeroCloseExample],
    by simp [get_best_yes_price, bookZeroDepthExample, listMax], ?_⟩
  simp [close_position, ledgerZeroCloseExample, lookupPos, envZeroBidExample,
    posZeroCloseExample, get_best_yes_price, bookZeroDepthExample, listMax]

/-- C9 (amended).  The position-size fraction handed to the ledger is
(strategy limit if the strategy's risk management defines one, else the
settings default) × score, clamped at that same limit (a no-op clamp for
scores in [0, 1] and a nonnegative limit); the settings maximum is *not*
consulted — and does not bound the result — when the strategy defines its
own limit. -/
theorem position_size_amended (score m settings_max : ℚ)
    (h0 : 0 ≤ score) (h1 : score ≤ 1) :
    (0 ≤ m → calculate_position_size score (some m) settings_max = m * score)
    ∧ (0 ≤ settings_max → calculate_position_size score none settings_max = settings_max * score)
    ∧ (∀ s2 : ℚ, calculate_position_size score (some m) settings_max
        = calculate_position_size score (some m) s2) := by
  refine ⟨?_, ?_, fun s2 => rfl⟩
  · intro hm
    simp only [calculate_position_size, Option.getD_some]
    exact min_eq_left (mul_le_of_le_one_right hm h1)
  · intro hs
    simp only [calculate_position_size, Option.getD_none]
    exact min_eq_left (mul_le_of_le_one_right hs h1)

/-- Witness for C9: a strategy limit of 0.5 with settings limit 0.25 and
score 0.8 yields 0.4 — the strategy limit times the score. -/
theorem position_size_amended_witness :
    calculate_position_size (4/5) (some (1/2)) (1/4) = 2/5 := by
  have h := (position_size_amended (4/5) (1/2) (1/4) (by norm_num) (by norm_num)).1 (by norm_num)
  rw [h]
  norm_num

/-- Counterexample to C9 as stated: with strategy limit 0.5, settings
limit 0.25 and score 1 the code returns 0.5, but the claim's formula
min(strategyMax, settingsMax) × score gives 0.25. -/
theorem position_size_counterexample :
    calculate_position_size 1 (some (1/2)) (1/4) = 1/2
    ∧ min ((1:ℚ)/2) (1/4) * 1 = 1/4
    ∧ ((1:ℚ)/2) ≠ 1/4 := by
  refine ⟨?_, by norm_num, by norm_num⟩
  norm_num [calculate_position_size]

/-- Closing books its entire capital change as its (at most one)
close-proceeds event, and emits nothing else. -/
theorem close_position_events (s : TraderState) (env : PriceEnv) (pid : String) (now : ℕ) :
    (close_position s env pid now).2.1.capital
        = s.capital + ((close_position s env pid now).2.2.map eventDelta).sum
    ∧ ∀ e ∈ (close_position s env pid now).2.2, e.isClose := by
  rcases hpos : lookupPos s.positions pid with _ | pos
  · simp [close_position, hpos]
  rcases hob : env pos.market_id with _ | ob
  · simp [close_position, hpos, hob]
  rcases hx : (if pos.side = PositionSide.LONG then get_best_yes_price ob
      else get_best_no_price ob) with _ | x
  · simp [close_position, hpos, hob, hx]
  by_cases hx0 : x = 0
  · subst hx0
    simp [close_position, hpos, hob, hx]
  · simp [close_position, hpos, hob, hx, if_neg hx0, eventDelta, CapitalEvent.isClose]

/-- The position-refresh loop books its capital changes exactly as the
events of the stop-loss/take-profit closes it performs, and every one of
those events is a close credit. -/
theorem update_positions_go_events (env : PriceEnv) (now : ℕ) :
    ∀ (pids : List String) (s : TraderState),
      (update_positions_go env now pids s).1.capital
          = s.capital + ((update_positions_go env now pids s).2.map eventDelta).sum
      ∧ ∀ e ∈ (update_positions_go env now pids s).2, e.isClose
  | [], s => by simp [update_positions_go]
  | pid :: rest, s => by
    rcases hpos : lookupPos s.positions pid with _ | pos
    · simpa [update_positions_go, hpos] using update_positions_go_events env now rest s
    rcases hob : env pos.market_id with _ | ob
    · simpa [update_positions_go, hpos, hob] using update_positions_go_events env now rest s
    rcases hx : (if pos.side = PositionSide.LONG then get_best_yes_price ob
        else get_best_no_price ob) with _ | x
    · simpa [update_positions_go, hpos, hob, hx] using update_positions_go_events env now rest s
    by_cases hx0 : x = 0
    · subst hx0
      simpa [update_positions_go, hpos, hob, hx] using update_positions_go_events env now rest s
    by_cases hexit : should_exit (pos.update_pnl x) x = true
    · have hclose := close_position_events
        { s with positions := setPos s.positions pid (pos.update_pnl x) } env pid now
      have hrec := update_positions_go_events env now rest
        (close_position { s with positions := setPos s.positions pid (pos.update_pnl x) }
          env pid now).2.1
      simp only [update_positions_go, hpos, hob, hx, if_neg hx0, hexit,
        eq_self_iff_true, if_true]
      constructor
      · rw [List.map_append, List.sum_append, hrec.1, hclose.1]
        show _ = s.capital + _
        ring
      · intro e he
        rcases List.mem_append.mp he with h | h
        · exact hclose.2 e h
        · exact hrec.2 e h
    · have hrec := update_positions_go_events env now rest
        { s with positions := setPos s.positions pid (pos.update_pnl x) }
      rw [Bool.not_eq_true] at hexit
      simp only [update_positions_go, hpos, hob, hx, if_neg hx0, hexit,
        Bool.false_eq_true, if_false]
      exact hrec

/-- One ledger operation books its capital change exactly as the sum of
its recorded events: −(fill price × fill size) per accepted fill,
+(exit price × size) per performed close, nothing otherwise. -/
theorem applyOp_capital (env : PriceEnv) (now : ℕ) (s : TraderState) (op : LedgerOp) :
    (applyOp env now s op).1.capital
        = s.capital + ((applyOp env now s op).2.map eventDelta).sum := by
  cases op with
  | place opp pct sid sname =>
    by_cases hep : opp.entry_price = 0
    · simp [applyOp, place_order, hep]
    · by_cases hover : get_equity s * pct > s.capital
      · simp [applyOp, place_order, hep, hover]
      · simp only [applyOp, place_order, if_neg hep, if_neg (by exact hover), execute_order]
        simp [eventDelta]
        ring
  | close pid =>
    simpa [applyOp] using (close_position_events s env pid now).1
  | refresh =>
    simpa [applyOp, update_positions] using
      (update_positions_go_events env now (s.positions.map (·.1)) s).1
  | statsQuery => simp [applyOp]

/-- Capital across an operation trace equals the initial capital plus the
sum of all recorded event deltas. -/
theorem runOps_capital (env : PriceEnv) (now : ℕ) :
    ∀ (ops : List LedgerOp) (s : TraderState),
      (runOps env now s ops).1.capital
          = s.capital + ((runOps env now s ops).2.map eventDelta).sum
  | [], s => by simp [runOps]
  | op :: ops, s => by
    have h1 := applyOp_capital env now s op
    have h2 := runOps_capital env now ops (applyOp env now s op).1
    simp only [runOps]
    rw [List.map_append, List.sum_append, h2, h1]
    ring

/-- C1 (amended).  Capital conservation: over every trace of placements,
closes, position refreshes and statistics queries, the final capital is
the initial capital plus Σ eventDelta over the recorded capital events —
each a −(fill price × fill size) on an accepted open/increase or a
+(exit price × size) on a close.  Statistics queries change nothing, and
a position refresh changes capital only through the stop-loss/take-profit
closes it triggers: every event a refresh emits is a close credit (the
original claim's "position refresh never changes capital" fails — see the
counterexample). -/
theorem capital_conservation_amended (env : PriceEnv) (now : ℕ) (s : TraderState)
    (ops : List LedgerOp) :
    (runOps env now s ops).1.capital
        = s.capital + ((runOps env now s ops).2.map eventDelta).sum
    ∧ (∀ e ∈ (update_positions s env now).2, e.isClose)
    ∧ applyOp env now s .statsQuery = (s, []) := by
  refine ⟨runOps_capital env now ops s, ?_, rfl⟩
  exact (update_positions_go_events env now (s.positions.map (·.1)) s).2

/-- Position with a stop-loss at 0.50, LONG 10 units from entry 0.50. -/
def posStopExample : Position :=
  { id := "m_YES", market_id := "m", side := .LONG, size := 10,
    entry_price := 1/2, current_price := 1/2, stop_loss := some (1/2) }

/-- Ledger holding the stop-lossed position with capital 100. -/
def ledgerStopExample : TraderState :=
  { capital := 100, initial_capital := 100, positions := [("m_YES", posStopExample)] }

/-- Price feed whose best YES bid (0.40) breaches the stop. -/
def envStopExample : PriceEnv :=
  fun m => if m = "m" then some { market_id := "m", yes_bids := [⟨2/5, 1⟩] } else none

/-- Counterexample to C1 as stated: a position refresh is claimed never
to change capital, but refreshing a ledger whose stop-loss triggers
closes the position and credits the exit proceeds — capital moves from
100 to 104. -/
theorem refresh_changes_capital_counterexample :
    (applyOp envStopExample 0 ledgerStopExample .refresh).1.capital = 104
    ∧ ledgerStopExample.capital = 100
    ∧ ((104 : ℚ)) ≠ 100 := by
  refine ⟨?_, rfl, by norm_num⟩
  norm_num [applyOp, update_positions, update_positions_go, ledgerStopExample, posStopExample,
    envStopExample, lookupPos, setPos, removePos, get_best_yes_price, get_best_no_price,
    listMax, Position.update_pnl, should_exit, close_position]

/-- Witness for C1: on the stop-loss trace the conservation equation is
the theorem's first conjunct, and the single event the refresh emits is a
close credit — its membership hypothesis discharged by evaluation. -/
theorem capital_conservation_amended_witness :
    (runOps envStopExample 0 ledgerStopExample [.refresh, .statsQuery]).1.capital
        = ledgerStopExample.capital
          + (((runOps envStopExample 0 ledgerStopExample [.refresh, .statsQuery]).2).map
              eventDelta).sum
    ∧ CapitalEvent.isClose (CapitalEvent.closeProceeds (2/5) 10) := by
  refine ⟨(capital_conservation_amended envStopExample 0 ledgerStopExample
    [.refresh, .statsQuery]).1, ?_⟩
  refine (capital_conservation_amended envStopExample 0 ledgerStopExample []).2.1
    (CapitalEvent.closeProceeds (2/5) 10) ?_
  norm_num [update_positions, update_positions_go, ledgerStopExample, posStopExample,
    envStopExample, lookupPos, setPos, removePos, get_best_yes_price, get_best_no_price,
    listMax, Position.update_pnl, should_exit, close_position]
